import Mathlib

/-!
Verification of the Clifford circuit simulator (src/tableau.py) against its
natural-language specification.

The tableau is a 2n x (2n+1) binary matrix: columns [0, n) hold X components,
columns [n, 2n) hold Z components, column 2n holds the phase bit.  We embed
the matrix as a total function `Nat → Nat → Nat` whose entries are 0/1 on the
live region (rows < 2n, cols ≤ 2n); every in-place loop of the Python source
is row-local, so each gate is the pointwise functional update obtained by
unrolling the source's reads and writes in program order.
-/

/-- Embedding of the `Tableau` class: qubit count plus the binary matrix. -/
structure Tableau where
  n_qubits : Nat
  matrix : Nat → Nat → Nat

namespace Tableau

/-- `_initialize_tableau` after `np.zeros`: the identity block `X = I` on
rows/cols `[0, n)`, the identity block `Z = I` on rows `[n, 2n)` and cols
`[n, 2n)`, zero elsewhere (in particular the phase column). -/
def initMatrix (n : Nat) (row col : Nat) : Nat :=
  if row < n ∧ col < n then (if row = col then 1 else 0)
  else if n ≤ row ∧ row < 2 * n ∧ n ≤ col ∧ col < 2 * n then
    (if row = col then 1 else 0)
  else 0

/-- The tableau built by `__init__` for a (nonnegative) qubit count. -/
def init (n : Nat) : Tableau := ⟨n, initMatrix n⟩

/-- Errors that construction can raise.  The source performs no validation of
its own; the only failure is numpy's `ValueError` when `np.zeros` receives a
negative dimension. -/
inductive ConstructError where
  | negativeDimensions
  deriving DecidableEq

/-- `Tableau(n_qubits)` for an arbitrary Python `int` argument: `np.zeros`
rejects a negative dimension with `ValueError`; otherwise the tableau is
allocated and initialized.  There is no `n_qubits ≥ 1` check in the source. -/
def construct (n : Int) : Except ConstructError Tableau :=
  if n < 0 then .error .negativeDimensions
  else .ok (init n.toNat)

/-- `Tableau.cnot(control, target)`: two sequential row loops.  The first
XORs 1 into column `control` of each row whose column `target` is 1; the
second (running on the matrix left by the first) XORs 1 into column
`n + target` of each row whose column `n + control` is 1.  Each loop
iteration reads its branch bit before its own write, and rows are
independent, so the two passes are the two pointwise updates below. -/
def cnot (T : Tableau) (control target : Nat) : Tableau :=
  let n := T.n_qubits
  let m1 : Nat → Nat → Nat := fun row col =>
    if row < 2 * n ∧ col = control ∧ T.matrix row target = 1 then
      T.matrix row col ^^^ 1
    else T.matrix row col
  let m2 : Nat → Nat → Nat := fun row col =>
    if row < 2 * n ∧ col = n + target ∧ m1 row (n + control) = 1 then
      m1 row col ^^^ 1
    else m1 row col
  { T with matrix := m2 }

/-- `Tableau.hadamard(qubit)`: per row, read `x` and `z`, write `z` into
column `qubit`, then write `x` into column `n + qubit`, then toggle the
phase column iff `x = 1 ∧ z = 1`.  The writes are unrolled in program
order (a later write to the same column wins). -/
def hadamard (T : Tableau) (qubit : Nat) : Tableau :=
  let n := T.n_qubits
  { T with matrix := fun row col =>
      if row < 2 * n then
        let x := T.matrix row qubit
        let z := T.matrix row (n + qubit)
        let afterSwap : Nat :=
          if col = n + qubit then x
          else if col = qubit then z
          else T.matrix row col
        if col = 2 * n ∧ x = 1 ∧ z = 1 then afterSwap ^^^ 1 else afterSwap
      else T.matrix row col }

/-- `Tableau.phase(qubit)`: per row, if column `qubit` is 1, toggle column
`n + qubit` and then toggle the phase column, unrolled in program order. -/
def phase (T : Tableau) (qubit : Nat) : Tableau :=
  let n := T.n_qubits
  { T with matrix := fun row col =>
      if row < 2 * n ∧ T.matrix row qubit = 1 then
        let afterZ : Nat :=
          if col = n + qubit then T.matrix row col ^^^ 1 else T.matrix row col
        if col = 2 * n then afterZ ^^^ 1 else afterZ
      else T.matrix row col }

/-- Error raised by `apply_gate` for an unrecognized gate name. -/
inductive GateError where
  | unsupportedGate (name : String)
  deriving DecidableEq

/-- Python's `str.lower()` on a gate name (all recognized names are ASCII):
lowercase every character. -/
def pyLower (s : String) : String := ⟨s.data.map Char.toLower⟩

/-- `Tableau.apply_gate(gate, *qubits)`: case-insensitive dispatch on the
gate name, in source order (cnot/cx, then h/hadamard, then s/phase), with
`ValueError` for anything else. -/
def apply_gate (T : Tableau) (gate : String) (qubits : List Nat) :
    Except GateError Tableau :=
  if pyLower gate = "cnot" ∨ pyLower gate = "cx" then
    .ok (T.cnot (qubits.getD 0 0) (qubits.getD 1 0))
  else if pyLower gate = "h" ∨ pyLower gate = "hadamard" then
    .ok (T.hadamard (qubits.getD 0 0))
  else if pyLower gate = "s" ∨ pyLower gate = "phase" then
    .ok (T.phase (qubits.getD 0 0))
  else .error (.unsupportedGate gate)

/-- Errors of the spec's `rowsum` primitive. -/
inductive RowsumError where
  | rowIndexOutOfRange
  | phaseInvariantViolation
  deriving DecidableEq

/-- Modelled from the spec: the per-qubit phase contribution
`g(x1, z1, x2, z2)` of `rowsum` (section 4.6), absent from src/.  Cases on
the pre-update bits `(x1, z1)` of row `h` at one qubit column, with
`(x2, z2)` the bits of row `i` there: `(0,0) ↦ 0`, `(1,1) ↦ z2 − x2`,
`(1,0) ↦ z2·(2·x2 − 1)`, `(0,1) ↦ x2·(1 − 2·z2)`. -/
def gContrib (x1 z1 x2 z2 : Nat) : Int :=
  if x1 = 0 ∧ z1 = 0 then 0
  else if x1 = 1 ∧ z1 = 1 then (z2 : Int) - (x2 : Int)
  else if x1 = 1 ∧ z1 = 0 then (z2 : Int) * (2 * (x2 : Int) - 1)
  else (x2 : Int) * (1 - 2 * (z2 : Int))

/-- Modelled from the spec: the integer sum of `gContrib` over the `n`
qubit columns, for 0-based rows `h0`, `i0` of tableau `T`. -/
def gSum (T : Tableau) (h0 i0 : Nat) : Int :=
  (List.range T.n_qubits).foldl
    (fun acc j =>
      acc + gContrib (T.matrix h0 j) (T.matrix h0 (T.n_qubits + j))
        (T.matrix i0 j) (T.matrix i0 (T.n_qubits + j))) 0

/-- Modelled from the spec: the combined phase exponent
`p = (2·phase_h + 2·phase_i + g) mod 4`, evaluated on the pre-update phase
bits and pre-update X/Z values of 0-based rows `h0` and `i0`. -/
def rowsumPhaseExp (T : Tableau) (h0 i0 : Nat) : Int :=
  (2 * (T.matrix h0 (2 * T.n_qubits) : Int) +
    2 * (T.matrix i0 (2 * T.n_qubits) : Int) + gSum T h0 i0) % 4

/-- Modelled from the spec: the tableau a successful `rowsum(h, i)` leaves
behind — row `h`'s X/Z columns XORed with row `i`'s pre-update columns, row
`h`'s phase bit recomputed from `p`, all other rows untouched. -/
def rowsumResult (T : Tableau) (h i : Nat) : Tableau :=
  let n := T.n_qubits
  let h0 := h - 1
  let i0 := i - 1
  let p := rowsumPhaseExp T h0 i0
  { T with matrix := fun row col =>
      if row = h0 ∧ col < 2 * n then T.matrix row col ^^^ T.matrix i0 col
      else if row = h0 ∧ col = 2 * n then (if p = 0 then 0 else 1)
      else T.matrix row col }

/-- Modelled from the spec: `rowsum(h, i)` (section 4.6), absent from src/.
Indices are 1-based and must lie in `[1, 2n]`, else `RowIndexOutOfRange`.
With `p = (2·phase_h + 2·phase_i + g) mod 4` computed from the pre-update
rows: if `p` is odd the call fails with `PhaseInvariantViolation`;
otherwise the result is `rowsumResult`. -/
def rowsum (T : Tableau) (h i : Nat) : Except RowsumError Tableau :=
  let n := T.n_qubits
  if h < 1 ∨ 2 * n < h ∨ i < 1 ∨ 2 * n < i then .error .rowIndexOutOfRange
  else
    let p := rowsumPhaseExp T (h - 1) (i - 1)
    if p = 0 ∨ p = 2 then .ok (rowsumResult T h i)
    else .error .phaseInvariantViolation

end Tableau

namespace Tableau

theorem xor_one_twice (m : Nat) : m ^^^ 1 ^^^ 1 = m := by
  rw [Nat.xor_assoc, Nat.xor_self, Nat.xor_zero]

/-- C7: for every n ≥ 1, construction yields the 2n x (2n+1) tableau whose
destabilizer rows [0, n) have X block = identity and Z block = 0, whose
stabilizer rows [n, 2n) have X block = 0 and Z block = identity, and whose
phase column (column 2n) is all zero. -/
theorem construct_basis_state (n : Nat) (hn : 1 ≤ n) :
    construct (n : Int) = .ok (init n) ∧
    (init n).n_qubits = n ∧
    (∀ i j, i < n → j < n →
      (init n).matrix i j = (if i = j then 1 else 0) ∧
      (init n).matrix i (n + j) = 0 ∧
      (init n).matrix (n + i) j = 0 ∧
      (init n).matrix (n + i) (n + j) = (if i = j then 1 else 0)) ∧
    (∀ row, row < 2 * n → (init n).matrix row (2 * n) = 0) := by
  refine ⟨?_, rfl, ?_, ?_⟩
  · unfold construct
    rw [if_neg (not_lt.mpr (Int.natCast_nonneg n)), Int.toNat_natCast]
  · intro i j hi hj
    refine ⟨?_, ?_, ?_, ?_⟩
    · show initMatrix n i j = _
      unfold initMatrix
      rw [if_pos ⟨hi, hj⟩]
    · show initMatrix n i (n + j) = 0
      unfold initMatrix
      rw [if_neg (by omega), if_neg (by omega)]
    · show initMatrix n (n + i) j = 0
      unfold initMatrix
      rw [if_neg (by omega), if_neg (by omega)]
    · show initMatrix n (n + i) (n + j) = _
      unfold initMatrix
      rw [if_neg (by omega), if_pos (by omega)]
      by_cases hij : i = j
      · rw [if_pos (by omega), if_pos hij]
      · rw [if_neg (by omega), if_neg hij]
  · intro row hrow
    show initMatrix n row (2 * n) = 0
    unfold initMatrix
    rw [if_neg (by omega), if_neg (by omega)]

theorem construct_basis_state_witness :
    1 ≤ 1 ∧ construct ((1 : Nat) : Int) = .ok (init 1) :=
  ⟨le_refl 1, (construct_basis_state 1 (by decide)).1⟩

/-- C6 counterexample: constructing with `n_qubits = 0` does not fail — there
is no validation in `__init__`, so it succeeds with a degenerate 0 x 1
tableau, contradicting the claim that zero fails with `InvalidDimension`. -/
theorem construct_zero_counterexample : construct 0 = .ok (init 0) := by
  unfold construct
  rw [if_neg (by decide)]
  rfl

/-- C6 (amended): construction performs no qubit-count validation — it
succeeds for every n ≥ 0 (including 0), and for negative n it fails only
with numpy's ValueError on the negative array dimension. -/
theorem construct_no_validation (n : Int) :
    (0 ≤ n → construct n = .ok (init n.toNat)) ∧
    (n < 0 → construct n = .error .negativeDimensions) := by
  constructor
  · intro h0
    unfold construct
    rw [if_neg (not_lt.mpr h0)]
  · intro h0
    unfold construct
    rw [if_pos h0]

theorem construct_no_validation_witness :
    ((0 : Int) ≤ 0 ∧ construct 0 = .ok (init (0 : Int).toNat)) ∧
    ((-1 : Int) < 0 ∧ construct (-1) = .error .negativeDimensions) :=
  ⟨⟨by decide, (construct_no_validation 0).1 (by decide)⟩,
   ⟨by decide, (construct_no_validation (-1)).2 (by decide)⟩⟩

/-- C5: evaluating the code at the failing input.  On the fresh 1-qubit
tableau, `phase(0)` turns the destabilizer row (X=1, Z=0, phase=0) into
(X=1, Z=1, phase=1): the code unconditionally toggles the phase bit of
every row with X bit 1, so the resulting phase bit is 1, not the 0 the
claim (and the S-gate conjugation semantics the docstring invokes)
requires. -/
theorem phase_gate_sign_bug :
    ((init 1).phase 0).matrix 0 0 = 1 ∧
    ((init 1).phase 0).matrix 0 1 = 1 ∧
    ((init 1).phase 0).matrix 0 2 = 1 := by
  decide

/-- C10: applying `phase(q)` twice in succession restores the tableau exactly
(for any in-range qubit): the implemented phase operation toggles the same
two bits of each affected row on both applications, since the branch bit at
column `q` is never modified. -/
theorem phase_involution (T : Tableau) (q : Nat) (hq : q < T.n_qubits) :
    (T.phase q).phase q = T := by
  have expand : ∀ (S : Tableau) (row col : Nat),
      (S.phase q).matrix row col =
        if row < 2 * S.n_qubits ∧ S.matrix row q = 1 then
          (if col = 2 * S.n_qubits then
            (if col = S.n_qubits + q then S.matrix row col ^^^ 1
             else S.matrix row col) ^^^ 1
           else (if col = S.n_qubits + q then S.matrix row col ^^^ 1
             else S.matrix row col))
        else S.matrix row col := fun S row col => rfl
  have hn : (T.phase q).n_qubits = T.n_qubits := rfl
  have hq1 : ¬ (q = T.n_qubits + q) := by omega
  have hq2 : ¬ (q = 2 * T.n_qubits) := by omega
  have hM : ((T.phase q).phase q).matrix = T.matrix := by
    funext row col
    simp only [expand, hn]
    simp only [if_neg hq1, if_neg hq2, ite_self]
    split_ifs <;> first | rfl | omega | exact xor_one_twice _
  calc (T.phase q).phase q = ⟨T.n_qubits, ((T.phase q).phase q).matrix⟩ := rfl
    _ = ⟨T.n_qubits, T.matrix⟩ := by rw [hM]
    _ = T := rfl

theorem phase_involution_witness :
    0 < (init 1).n_qubits ∧ ((init 1).phase 0).phase 0 = init 1 :=
  ⟨by decide, phase_involution (init 1) 0 (by decide)⟩

/-- C3: for every in-range qubit, `hadamard(qubit)` swaps, in every row, the
X bit at column `qubit` with the Z bit at column `n + qubit`, toggles the
row's phase bit (column 2n) exactly when both bits were 1 before the swap,
and leaves every other entry unchanged. -/
theorem hadamard_spec (T : Tableau) (q : Nat) (hq : q < T.n_qubits)
    (row : Nat) (hrow : row < 2 * T.n_qubits) (col : Nat) :
    (T.hadamard q).matrix row col =
      if col = q then T.matrix row (T.n_qubits + q)
      else if col = T.n_qubits + q then T.matrix row q
      else if col = 2 * T.n_qubits ∧ T.matrix row q = 1 ∧
          T.matrix row (T.n_qubits + q) = 1 then T.matrix row col ^^^ 1
      else T.matrix row col := by
  have expand : (T.hadamard q).matrix row col =
      if row < 2 * T.n_qubits then
        (if col = 2 * T.n_qubits ∧ T.matrix row q = 1 ∧
            T.matrix row (T.n_qubits + q) = 1 then
          (if col = T.n_qubits + q then T.matrix row q
           else if col = q then T.matrix row (T.n_qubits + q)
           else T.matrix row col) ^^^ 1
        else (if col = T.n_qubits + q then T.matrix row q
           else if col = q then T.matrix row (T.n_qubits + q)
           else T.matrix row col))
      else T.matrix row col := rfl
  rw [expand, if_pos hrow]
  split_ifs <;> first | rfl | omega

theorem hadamard_spec_witness :
    0 < (init 1).n_qubits ∧ 1 < 2 * (init 1).n_qubits ∧
    ((init 1).hadamard 0).matrix 1 0 = 1 :=
  ⟨by decide, by decide,
    (hadamard_spec (init 1) 0 (by decide) 1 (by decide) 0).trans (by decide)⟩

/-- C4: for every in-range qubit, `phase(qubit)` toggles, in each row whose
X bit at column `qubit` is 1, both the Z bit at column `n + qubit` and the
phase bit (column 2n); rows whose X bit at `qubit` is 0 are left entirely
unchanged. -/
theorem phase_spec (T : Tableau) (q : Nat) (hq : q < T.n_qubits)
    (row : Nat) (hrow : row < 2 * T.n_qubits) (col : Nat) :
    (T.phase q).matrix row col =
      if T.matrix row q = 1 then
        (if col = T.n_qubits + q ∨ col = 2 * T.n_qubits then
          T.matrix row col ^^^ 1
        else T.matrix row col)
      else T.matrix row col := by
  have expand : (T.phase q).matrix row col =
      if row < 2 * T.n_qubits ∧ T.matrix row q = 1 then
        (if col = 2 * T.n_qubits then
          (if col = T.n_qubits + q then T.matrix row col ^^^ 1
           else T.matrix row col) ^^^ 1
         else (if col = T.n_qubits + q then T.matrix row col ^^^ 1
           else T.matrix row col))
      else T.matrix row col := rfl
  rw [expand]
  split_ifs <;> first | rfl | omega

theorem phase_spec_witness :
    0 < (init 1).n_qubits ∧ 0 < 2 * (init 1).n_qubits ∧
    ((init 1).phase 0).matrix 0 1 = 1 :=
  ⟨by decide, by decide,
    (phase_spec (init 1) 0 (by decide) 0 (by decide) 1).trans (by decide)⟩

/-- C2: for every pair control ≠ target of in-range qubits, `cnot` updates
each row by XORing 1 into the X bit at column `control` iff the X bit at
column `target` is 1, and XORing 1 into the Z bit at column `n + target`
iff the Z bit at column `n + control` is 1, both branches reading pre-gate
values; the phase column (column 2n) is never changed. -/
theorem cnot_spec (T : Tableau) (c t : Nat) (hct : c ≠ t)
    (hc : c < T.n_qubits) (ht : t < T.n_qubits)
    (row : Nat) (hrow : row < 2 * T.n_qubits) (col : Nat) :
    ((T.cnot c t).matrix row col =
      if col = c ∧ T.matrix row t = 1 then T.matrix row col ^^^ 1
      else if col = T.n_qubits + t ∧ T.matrix row (T.n_qubits + c) = 1 then
        T.matrix row col ^^^ 1
      else T.matrix row col) ∧
    (T.cnot c t).matrix row (2 * T.n_qubits) =
      T.matrix row (2 * T.n_qubits) := by
  have h1 : ¬(row < 2 * T.n_qubits ∧ T.n_qubits + c = c ∧
      T.matrix row t = 1) := by omega
  have expandAll : ∀ col', (T.cnot c t).matrix row col' =
      (if row < 2 * T.n_qubits ∧ col' = T.n_qubits + t ∧
          (if row < 2 * T.n_qubits ∧ T.n_qubits + c = c ∧
              T.matrix row t = 1 then
            T.matrix row (T.n_qubits + c) ^^^ 1
          else T.matrix row (T.n_qubits + c)) = 1 then
        (if row < 2 * T.n_qubits ∧ col' = c ∧ T.matrix row t = 1 then
          T.matrix row col' ^^^ 1
        else T.matrix row col') ^^^ 1
      else
        (if row < 2 * T.n_qubits ∧ col' = c ∧ T.matrix row t = 1 then
          T.matrix row col' ^^^ 1
        else T.matrix row col')) := fun col' => rfl
  constructor
  · rw [expandAll col, if_neg h1]
    split_ifs <;> first | rfl | omega
  · rw [expandAll (2 * T.n_qubits), if_neg h1, if_neg (by omega),
      if_neg (by omega)]

theorem cnot_spec_witness :
    (0 ≠ 1 ∧ 0 < (init 2).n_qubits ∧ 1 < (init 2).n_qubits ∧
      1 < 2 * (init 2).n_qubits) ∧
    ((init 2).cnot 0 1).matrix 1 0 = 1 :=
  ⟨⟨by decide, by decide, by decide, by decide⟩,
    (cnot_spec (init 2) 0 1 (by decide) (by decide) (by decide) 1
      (by decide) 0).1.trans (by decide)⟩

/-- C8 counterexample: `cnot(0, 0)` on the fresh 1-qubit tableau neither
fails with `InvalidArgument` nor leaves the matrix unmutated — no gate
performs any argument validation — so the entry at row 0, column 0 changes
from 1 to 0. -/
theorem cnot_no_validation_counterexample :
    ((init 1).cnot 0 0).matrix 0 0 = 0 ∧ (init 1).matrix 0 0 = 1 := by
  decide

/-- C8 (amended): the gates perform no argument validation and raise no
`IndexOutOfRange`/`InvalidArgument`; in particular `cnot` with
control = target completes and, in every row, clears to 0 the X bit at
column `target` and the Z bit at column `n + target` wherever they were 1,
leaving all other entries unchanged. -/
theorem cnot_equal_args_spec (T : Tableau) (c : Nat) (hc : c < T.n_qubits)
    (row col : Nat) (hrow : row < 2 * T.n_qubits) :
    (T.cnot c c).matrix row col =
      if col = c ∧ T.matrix row c = 1 then 0
      else if col = T.n_qubits + c ∧ T.matrix row (T.n_qubits + c) = 1 then 0
      else T.matrix row col := by
  have h1 : ¬(row < 2 * T.n_qubits ∧ T.n_qubits + c = c ∧
      T.matrix row c = 1) := by omega
  have expandAll : ∀ col', (T.cnot c c).matrix row col' =
      (if row < 2 * T.n_qubits ∧ col' = T.n_qubits + c ∧
          (if row < 2 * T.n_qubits ∧ T.n_qubits + c = c ∧
              T.matrix row c = 1 then
            T.matrix row (T.n_qubits + c) ^^^ 1
          else T.matrix row (T.n_qubits + c)) = 1 then
        (if row < 2 * T.n_qubits ∧ col' = c ∧ T.matrix row c = 1 then
          T.matrix row col' ^^^ 1
        else T.matrix row col') ^^^ 1
      else
        (if row < 2 * T.n_qubits ∧ col' = c ∧ T.matrix row c = 1 then
          T.matrix row col' ^^^ 1
        else T.matrix row col')) := fun col' => rfl
  rw [expandAll col, if_neg h1]
  split_ifs <;>
    first
      | rfl
      | omega
      | tauto
      | simp_all [show (1 : Nat) ^^^ 1 = 0 from rfl]

theorem cnot_equal_args_spec_witness :
    (0 < (init 1).n_qubits ∧ 0 < 2 * (init 1).n_qubits) ∧
    ((init 1).cnot 0 0).matrix 0 0 = 0 :=
  ⟨⟨by decide, by decide⟩,
    (cnot_equal_args_spec (init 1) 0 (by decide) 0 0 (by decide)).trans
      (by decide)⟩

/-- C9: `apply_gate` dispatches on the lowercased gate name — h/hadamard to
the Hadamard update, s/phase to the Phase update, cnot/cx to the CNOT
update on the given indices — and fails with the unsupported-gate error,
producing no tableau, for every other name. -/
theorem apply_gate_spec (T : Tableau) (gate : String) (q c t : Nat)
    (qs : List Nat) :
    ((pyLower gate = "h" ∨ pyLower gate = "hadamard") →
      T.apply_gate gate [q] = .ok (T.hadamard q)) ∧
    ((pyLower gate = "s" ∨ pyLower gate = "phase") →
      T.apply_gate gate [q] = .ok (T.phase q)) ∧
    ((pyLower gate = "cnot" ∨ pyLower gate = "cx") →
      T.apply_gate gate [c, t] = .ok (T.cnot c t)) ∧
    (pyLower gate ≠ "cnot" → pyLower gate ≠ "cx" → pyLower gate ≠ "h" →
      pyLower gate ≠ "hadamard" → pyLower gate ≠ "s" →
      pyLower gate ≠ "phase" →
      T.apply_gate gate qs = .error (.unsupportedGate gate)) := by
  refine ⟨?_, ?_, ?_, ?_⟩
  · intro hg
    have hne : ¬(pyLower gate = "cnot" ∨ pyLower gate = "cx") := by
      rcases hg with hg | hg <;> rw [hg] <;> decide
    unfold apply_gate
    rw [if_neg hne, if_pos hg]
    rfl
  · intro hg
    have hne1 : ¬(pyLower gate = "cnot" ∨ pyLower gate = "cx") := by
      rcases hg with hg | hg <;> rw [hg] <;> decide
    have hne2 : ¬(pyLower gate = "h" ∨ pyLower gate = "hadamard") := by
      rcases hg with hg | hg <;> rw [hg] <;> decide
    unfold apply_gate
    rw [if_neg hne1, if_neg hne2, if_pos hg]
    rfl
  · intro hg
    unfold apply_gate
    rw [if_pos hg]
    rfl
  · intro h1 h2 h3 h4 h5 h6
    unfold apply_gate
    rw [if_neg (not_or.mpr ⟨h1, h2⟩), if_neg (not_or.mpr ⟨h3, h4⟩),
      if_neg (not_or.mpr ⟨h5, h6⟩)]

theorem apply_gate_spec_witness :
    (pyLower "H" = "h" ∧
      (init 1).apply_gate "H" [0] = .ok ((init 1).hadamard 0)) ∧
    (pyLower "Foo" ≠ "cnot" ∧
      (init 1).apply_gate "Foo" [0] = .error (.unsupportedGate "Foo")) :=
  ⟨⟨by decide, (apply_gate_spec (init 1) "H" 0 0 0 [0]).1 (Or.inl (by decide))⟩,
   ⟨by decide, (apply_gate_spec (init 1) "Foo" 0 0 0 [0]).2.2.2 (by decide)
      (by decide) (by decide) (by decide) (by decide) (by decide)⟩⟩

/-- C1 (spec-modelled): for 1-based rows h, i in [1, 2n], `rowsum(h, i)`
with `p = (2·phase_h + 2·phase_i + g) mod 4` computed from the pre-update
rows fails with `PhaseInvariantViolation` when p is odd (1 or 3), and
otherwise replaces row h's X/Z bits by their XOR with row i's bits and sets
row h's phase bit to 0 if p = 0 and to 1 if p = 2, leaving every other row
unchanged. -/
theorem rowsum_spec (T : Tableau) (h i : Nat) (hh1 : 1 ≤ h)
    (hh2 : h ≤ 2 * T.n_qubits) (hi1 : 1 ≤ i) (hi2 : i ≤ 2 * T.n_qubits) :
    ((rowsumPhaseExp T (h - 1) (i - 1) = 1 ∨
        rowsumPhaseExp T (h - 1) (i - 1) = 3) →
      T.rowsum h i = .error .phaseInvariantViolation) ∧
    ((rowsumPhaseExp T (h - 1) (i - 1) = 0 ∨
        rowsumPhaseExp T (h - 1) (i - 1) = 2) →
      T.rowsum h i = .ok (rowsumResult T h i) ∧
      (rowsumResult T h i).n_qubits = T.n_qubits ∧
      (∀ col, col < 2 * T.n_qubits →
        (rowsumResult T h i).matrix (h - 1) col =
          T.matrix (h - 1) col ^^^ T.matrix (i - 1) col) ∧
      (rowsumResult T h i).matrix (h - 1) (2 * T.n_qubits) =
        (if rowsumPhaseExp T (h - 1) (i - 1) = 0 then 0 else 1) ∧
      (∀ row col, row ≠ h - 1 →
        (rowsumResult T h i).matrix row col = T.matrix row col)) := by
  have hrange : ¬(h < 1 ∨ 2 * T.n_qubits < h ∨ i < 1 ∨
      2 * T.n_qubits < i) := by omega
  have expand : ∀ row col, (rowsumResult T h i).matrix row col =
      (if row = h - 1 ∧ col < 2 * T.n_qubits then
        T.matrix row col ^^^ T.matrix (i - 1) col
      else if row = h - 1 ∧ col = 2 * T.n_qubits then
        (if rowsumPhaseExp T (h - 1) (i - 1) = 0 then 0 else 1)
      else T.matrix row col) := fun row col => rfl
  constructor
  · intro hp
    simp only [rowsum]
    rw [if_neg hrange, if_neg (by rcases hp with hp | hp <;> omega)]
  · intro hp
    refine ⟨?_, rfl, ?_, ?_, ?_⟩
    · simp only [rowsum]
      rw [if_neg hrange, if_pos hp]
    · intro col hcol
      rw [expand, if_pos ⟨rfl, hcol⟩]
    · rw [expand, if_neg (by omega), if_pos ⟨rfl, rfl⟩]
    · intro row col hne
      rw [expand, if_neg (by tauto), if_neg (by tauto)]

theorem rowsum_spec_witness :
    (1 ≤ 1 ∧ 1 ≤ 2 * (init 1).n_qubits ∧ 1 ≤ 2 ∧ 2 ≤ 2 * (init 1).n_qubits ∧
      (init 1).rowsum 1 2 = .error .phaseInvariantViolation) ∧
    (init 1).rowsum 1 1 = .ok (rowsumResult (init 1) 1 1) :=
  ⟨⟨by decide, by decide, by decide, by decide,
     (rowsum_spec (init 1) 1 2 (by decide) (by decide) (by decide)
       (by decide)).1 (Or.inr (by decide))⟩,
   ((rowsum_spec (init 1) 1 1 (by decide) (by decide) (by decide)
       (by decide)).2 (Or.inl (by decide))).1⟩

end Tableau
